import Mathlib

/-!
Verification of the sftp-promises connection/command core (src/index.js).

The development shallowly embeds the connection-lifecycle layer (`cmd`,
`handleConn`, the `resolved`/`rejected` handlers), the exec runner
(`execCmd`), the chunked buffer read loop (`getBuffer`), the single-write
put path (`putBuffer`), and the entry checks of `getStream`/`putStream`.

Bytes are `Nat`, buffers and remote file contents are `List Nat`.  The
transport environment (how many bytes a bounded read actually returns,
which SFTP steps fail) is made explicit as parameters, since the JS code
receives it through callbacks.
-/

namespace SftpPromises

/-- Error values that flow through the promise chain.  `underlying n` stands
for an opaque error object produced by the transport; the other constructors
are the errors the source constructs itself. -/
inductive JsError where
  | connectionClosed
  | nonZeroExit
  | streamNotWritable
  | streamNotReadable
  | underlying (n : Nat)
deriving DecidableEq, Repr

/-- Actions `handleConn` can perform on the connection object. -/
inductive ConnAction where
  | connEnd
  | connDestroy
deriving DecidableEq, Repr

/-- Embedding of `handleConn` (src/index.js lines 43-48): the teardown
decision.  `session` is true when the caller supplied an existing handle,
`persist` when persistence was requested, `failed` when the operation
rejected.  Returns the connection actions performed, in order:
`if (!session && (!persist || failed)) { conn.end(); conn.destroy() }`. -/
def handleConn (session persist failed : Bool) : List ConnAction :=
  if !session && (!persist || failed) then
    [ConnAction.connEnd, ConnAction.connDestroy]
  else
    []

/-- Events observable on the outer promise returned by `cmd`: connection
teardown actions, then the external settlement carrying the result. -/
inductive OuterEvent (α : Type) where
  | connAct (a : ConnAction)
  | settled (r : Except JsError α)
deriving Repr

/-- Whether an `Except` outcome is a failure. -/
def isFailure {α : Type} : Except JsError α → Bool
  | Except.ok _ => false
  | Except.error _ => true

/-- Embedding of the `.then(resolved, rejected)` stage of `cmd`
(src/index.js lines 51-78): given the settled outcome of the inner promise,
`resolved` calls `handleConn(false)` and re-resolves the value, `rejected`
calls `handleConn(true)` and re-rejects the error.  The returned trace lists
the teardown actions followed by the external settlement. -/
def cmdThenStage {α : Type} (session persist : Bool) (inner : Except JsError α) :
    List (OuterEvent α) :=
  (handleConn session persist (isFailure inner)).map OuterEvent.connAct
    ++ [OuterEvent.settled inner]

/-- The connection actions appearing in an outer-event trace, in order. -/
def teardownActions {α : Type} (tr : List (OuterEvent α)) : List ConnAction :=
  tr.filterMap fun e =>
    match e with
    | OuterEvent.connAct a => some a
    | OuterEvent.settled _ => none

/-- The settlements appearing in an outer-event trace, in order. -/
def settledEvents {α : Type} (tr : List (OuterEvent α)) : List (Except JsError α) :=
  tr.filterMap fun e =>
    match e with
    | OuterEvent.connAct _ => none
    | OuterEvent.settled r => some r

/-- Lifecycle signals the created connection can emit inside `cmd`
(src/index.js lines 66-75): `ready`, `end`, `error`. -/
inductive ConnEvent where
  | ready
  | ended
  | error (e : JsError)

/-- One invocation of the promise executor's `resolve`/`reject` on the
single-assignment promise cell: a settled promise ignores every later
invocation (JS promise semantics), an unsettled one settles. -/
def settleOnce {α : Type} (st : Option (Except JsError α)) (r : Except JsError α) :
    Option (Except JsError α) :=
  match st with
  | some v => some v
  | none => some r

/-- Run a sequence of `resolve`/`reject` invocations against the promise
cell, counting the invocations that actually settle it (the transitions
from unsettled to settled). -/
def settleRun {α : Type} (st : Option (Except JsError α)) (n : Nat) :
    List (Except JsError α) → Option (Except JsError α) × Nat
  | [] => (st, n)
  | r :: rest =>
    match st with
    | some v => settleRun (some v) n rest
    | none => settleRun (some r) (n + 1) rest

/-- The `resolve`/`reject` invocations a lifecycle signal produces inside
`cmd` when no session was supplied (src/index.js lines 66-74): `ready` runs
the command body (`cmdCB`, abstracted as the list of invocations it makes),
`end` rejects with the constructed connection-closed error, `error` rejects
with the underlying error. -/
def eventAttempts {α : Type} (cmdCB : List (Except JsError α)) :
    ConnEvent → List (Except JsError α)
  | ConnEvent.ready => cmdCB
  | ConnEvent.ended => [Except.error JsError.connectionClosed]
  | ConnEvent.error e => [Except.error e]

/-- All `resolve`/`reject` invocations produced by a sequence of lifecycle
signals on the connection created by `cmd`. -/
def cmdAttempts {α : Type} (cmdCB : List (Except JsError α))
    (events : List ConnEvent) : List (Except JsError α) :=
  (events.map (eventAttempts cmdCB)).flatten

/-- Whether a lifecycle signal settles the promise on its own: `end` and
`error` always reject; `ready` settles only if the command body does. -/
def settlingEvent {α : Type} (cmdCB : List (Except JsError α)) : ConnEvent → Bool
  | ConnEvent.ready => !cmdCB.isEmpty
  | ConnEvent.ended => true
  | ConnEvent.error _ => true

/-- Outcome of attempting to start a remote command and waiting for it:
either the transport reports a start error, or the command exits with a
status code. -/
inductive ExecOutcome where
  | startErr (e : JsError)
  | exit (code : Nat)

/-- Embedding of the body of `execCmd` (src/index.js lines 100-116):
`conn.exec` either reports an error (rejected unchanged) or yields a stream
whose exit code settles the promise: nonzero rejects with the constructed
error, zero resolves `true`. -/
def execCmd (o : ExecOutcome) : Except JsError Bool :=
  match o with
  | ExecOutcome.startErr e => Except.error e
  | ExecOutcome.exit code =>
    if code ≠ 0 then Except.error JsError.nonZeroExit else Except.ok true

/-- Embedding of the entry of the `getStream` body (src/index.js lines
416-421): the writability check runs before the sub-channel open error is
examined; the result is the rejection produced by this prefix, if any. -/
def getStreamEntry (writable : Bool) (err : Option JsError) : Option JsError :=
  if !writable then some JsError.streamNotWritable
  else
    match err with
    | some e => some e
    | none => none

/-- Embedding of the entry of the `putStream` body (src/index.js lines
454-459): the readability check runs before the sub-channel open error is
examined. -/
def putStreamEntry (readable : Bool) (err : Option JsError) : Option JsError :=
  if !readable then some JsError.streamNotReadable
  else
    match err with
    | some e => some e
    | none => none

/-- SFTP sub-channel calls made by the buffer paths, recorded in order.
`readCall bufOff len pos` and `writeCall bufOff len pos` carry the buffer
offset, requested length and file position of the bounded I/O call. -/
inductive SftpAction where
  | openR
  | fstatCall
  | readCall (bufOff len pos : Nat)
  | closeCall
  | openW
  | writeCall (bufOff len pos : Nat)
deriving DecidableEq, Repr

/-- Copy `data` into `buf` starting at offset `off`, leaving the rest of
`buf` unchanged: the effect of a bounded read delivering `data` into the
destination buffer. -/
def copyInto (buf : List Nat) (off : Nat) (data : List Nat) : List Nat :=
  buf.take off ++ data ++ buf.drop (off + data.length)

/-- Embedding of the read loop of `getBuffer` (src/index.js lines 231-244).
State: `buffer` is the destination, `bytes` the remaining count, `position`
the current offset (the code keeps buffer offset and file position equal).
The transport environment is a `schedule` of short-read caps: while entries
remain, a read requested for `len` bytes actually returns
`min len (ask + 1)` bytes (at least one, possibly fewer than requested);
once the schedule is exhausted every read returns the full requested
amount.  Each step issues `sftp.read(handle, buffer, position, bytes,
position, cb)`; the callback advances `position` by the bytes actually
read, decrements `bytes` by the same amount, and either recurses or closes
the handle and resolves.  Returns the final buffer and the action trace. -/
def getBufferLoop (content : List Nat) :
    List Nat → List Nat → Nat → Nat → List Nat × List SftpAction
  | [], buffer, bytes, position =>
    let chunk := (content.drop position).take bytes
    (copyInto buffer position chunk,
      [SftpAction.readCall position bytes position, SftpAction.closeCall])
  | ask :: rest, buffer, bytes, position =>
    let readBytes := min bytes (ask + 1)
    let chunk := (content.drop position).take readBytes
    let buffer2 := copyInto buffer position chunk
    let bytes2 := bytes - readBytes
    if bytes2 < 1 then
      (buffer2, [SftpAction.readCall position bytes position, SftpAction.closeCall])
    else
      let next := getBufferLoop content rest buffer2 bytes2 (position + readBytes)
      (next.1, SftpAction.readCall position bytes position :: next.2)

/-- Embedding of `getBuffer`'s command body on the success path
(src/index.js lines 217-250): open for read, `fstat` to learn the size,
allocate a zero-filled buffer of that size; a size of `0` resolves the
empty buffer immediately (before any read and without closing the file
handle), otherwise the read loop runs starting at offset `0`.  Returns the
resolved buffer and the trace of sub-channel calls. -/
def getBuffer (content : List Nat) (schedule : List Nat) :
    List Nat × List SftpAction :=
  let bytes := content.length
  let buffer := List.replicate bytes 0
  if bytes = 0 then
    (buffer, [SftpAction.openR, SftpAction.fstatCall])
  else
    let r := getBufferLoop content schedule buffer bytes 0
    (r.1, SftpAction.openR :: SftpAction.fstatCall :: r.2)

/-- Effect of an SFTP write on the remote file: the slice of `buffer` from
`bufOff` of length `len` is written at file position `pos`. -/
def writeAt (file : List Nat) (pos : Nat) (data : List Nat) : List Nat :=
  file.take pos ++ data ++ file.drop (pos + data.length)

/-- The remote file produced by `putBuffer`'s single write (src/index.js
line 266): opening for `w` truncates the file, then
`sftp.write(handle, buffer, 0, buffer.length, 0, ...)` writes the whole
buffer at position `0`. -/
def putBufferFile (buffer : List Nat) : List Nat :=
  writeAt [] 0 ((buffer.drop 0).take buffer.length)

/-- Which of the three sub-channel steps of `putBuffer` fail, as reported
through their callbacks. -/
structure PutEnv where
  openErr : Option JsError
  writeErr : Option JsError
  closeErr : Option JsError

/-- Embedding of `putBuffer`'s command body (src/index.js lines 260-277):
open for write; on success issue one write of the full buffer (buffer
offset `0`, length `buffer.length`, file position `0`); on success close
and resolve `true`; each step's error rejects unchanged.  Returns the trace
of sub-channel calls and the settlement. -/
def putBuffer (env : PutEnv) (buffer : List Nat) :
    List SftpAction × Except JsError Bool :=
  match env.openErr with
  | some e => ([SftpAction.openW], Except.error e)
  | none =>
    match env.writeErr with
    | some e =>
      ([SftpAction.openW, SftpAction.writeCall 0 buffer.length 0], Except.error e)
    | none =>
      match env.closeErr with
      | some e =>
        ([SftpAction.openW, SftpAction.writeCall 0 buffer.length 0,
          SftpAction.closeCall], Except.error e)
      | none =>
        ([SftpAction.openW, SftpAction.writeCall 0 buffer.length 0,
          SftpAction.closeCall], Except.ok true)

/-- Whether an action is a bounded read call. -/
def isReadCall : SftpAction → Bool
  | SftpAction.readCall _ _ _ => true
  | _ => false

/-- Whether an action is a bounded write call. -/
def isWriteCall : SftpAction → Bool
  | SftpAction.writeCall _ _ _ => true
  | _ => false

/-- Number of bounded read calls in a trace. -/
def readCount (tr : List SftpAction) : Nat := (tr.filter isReadCall).length

/-- Number of bounded write calls in a trace. -/
def writeCount (tr : List SftpAction) : Nat := (tr.filter isWriteCall).length

/-! ### Helper lemmas -/

theorem teardownActions_map_connAct {α : Type} (l : List ConnAction) :
    teardownActions (l.map (OuterEvent.connAct (α := α))) = l := by
  induction l with
  | nil => rfl
  | cons a t ih =>
    simp only [teardownActions, List.map_cons, List.filterMap_cons] at ih ⊢
    exact congrArg (a :: ·) ih

theorem settledEvents_map_connAct {α : Type} (l : List ConnAction) :
    settledEvents (l.map (OuterEvent.connAct (α := α))) = [] := by
  induction l with
  | nil => rfl
  | cons a t ih =>
    simp only [settledEvents, List.map_cons, List.filterMap_cons] at ih ⊢
    exact ih

theorem teardownActions_cmdThenStage {α : Type} (s p : Bool) (inner : Except JsError α) :
    teardownActions (cmdThenStage s p inner) = handleConn s p (isFailure inner) := by
  unfold cmdThenStage
  simp only [teardownActions, List.filterMap_append]
  rw [show List.filterMap _ (List.map (OuterEvent.connAct (α := α))
        (handleConn s p (isFailure inner)))
      = teardownActions (List.map (OuterEvent.connAct (α := α))
        (handleConn s p (isFailure inner))) from rfl]
  rw [teardownActions_map_connAct]
  simp [List.filterMap_cons]

theorem settledEvents_cmdThenStage {α : Type} (s p : Bool) (inner : Except JsError α) :
    settledEvents (cmdThenStage s p inner) = [inner] := by
  unfold cmdThenStage
  simp only [settledEvents, List.filterMap_append]
  rw [show List.filterMap _ (List.map (OuterEvent.connAct (α := α))
        (handleConn s p (isFailure inner)))
      = settledEvents (List.map (OuterEvent.connAct (α := α))
        (handleConn s p (isFailure inner))) from rfl]
  rw [settledEvents_map_connAct]
  simp [List.filterMap_cons]

theorem settleRun_some {α : Type} (v : Except JsError α) (n : Nat)
    (l : List (Except JsError α)) : settleRun (some v) n l = (some v, n) := by
  induction l with
  | nil => rfl
  | cons r rest ih => simpa [settleRun] using ih

theorem cmdAttempts_ne_nil {α : Type} (cmdCB : List (Except JsError α))
    (events : List ConnEvent) (ev : ConnEvent) (hmem : ev ∈ events)
    (hset : settlingEvent cmdCB ev = true) : cmdAttempts cmdCB events ≠ [] := by
  intro h
  unfold cmdAttempts at h
  rw [List.flatten_eq_nil_iff] at h
  have hev := h (eventAttempts cmdCB ev) (List.mem_map_of_mem _ hmem)
  cases ev with
  | ready =>
    simp only [eventAttempts] at hev
    rw [hev] at hset
    simp [settlingEvent] at hset
  | ended => simp [eventAttempts] at hev
  | error e => simp [eventAttempts] at hev

theorem copyInto_length (buf : List Nat) (off : Nat) (data : List Nat)
    (h : off + data.length ≤ buf.length) :
    (copyInto buf off data).length = buf.length := by
  simp only [copyInto, List.length_append, List.length_take, List.length_drop]
  omega

theorem copyInto_take (buf : List Nat) (off : Nat) (data : List Nat)
    (h : off ≤ buf.length) :
    (copyInto buf off data).take (off + data.length) = buf.take off ++ data := by
  have hl : (buf.take off ++ data).length = off + data.length := by
    simp only [List.length_append, List.length_take]
    omega
  unfold copyInto
  rw [← hl, List.take_left _ _]

theorem copyInto_final (content buffer : List Nat) (position : Nat)
    (hpos : position ≤ content.length)
    (hlen : buffer.length = content.length)
    (htake : buffer.take position = content.take position) :
    copyInto buffer position ((content.drop position).take (content.length - position))
      = content := by
  have hdl : (content.drop position).length = content.length - position := by simp
  rw [← hdl, List.take_length]
  unfold copyInto
  rw [htake, hdl]
  have h1 : position + (content.length - position) = content.length := by omega
  rw [h1]
  have h2 : buffer.drop content.length = [] := by
    rw [← hlen]; exact List.drop_length buffer
  rw [h2]
  simp [List.take_append_drop]

theorem getBufferLoop_fills (content : List Nat) :
    ∀ (schedule buffer : List Nat) (position : Nat),
      position < content.length →
      buffer.length = content.length →
      buffer.take position = content.take position →
      (getBufferLoop content schedule buffer (content.length - position) position).1
        = content := by
  intro schedule
  induction schedule with
  | nil =>
    intro buffer position hpos hlen htake
    simp only [getBufferLoop]
    exact copyInto_final content buffer position (Nat.le_of_lt hpos) hlen htake
  | cons ask rest ih =>
    intro buffer position hpos hlen htake
    simp only [getBufferLoop]
    by_cases hdone : content.length - position - min (content.length - position) (ask + 1) < 1
    · simp only [if_pos hdone]
      have hrb : min (content.length - position) (ask + 1) = content.length - position := by
        omega
      rw [hrb]
      exact copyInto_final content buffer position (Nat.le_of_lt hpos) hlen htake
    · simp only [if_neg hdone]
      have hrb1 : 1 ≤ min (content.length - position) (ask + 1) := by omega
      have hrble : min (content.length - position) (ask + 1) ≤ content.length - position := by
        omega
      set readBytes := min (content.length - position) (ask + 1) with hrB
      have hchunk : ((content.drop position).take readBytes).length = readBytes := by
        simp only [List.length_take, List.length_drop]
        omega
      have hpos2 : position + readBytes < content.length := by omega
      have hlen2 :
          (copyInto buffer position ((content.drop position).take readBytes)).length
            = content.length := by
        rw [copyInto_length _ _ _ (by rw [hchunk]; omega)]
        exact hlen
      have htake2 :
          (copyInto buffer position ((content.drop position).take readBytes)).take
              (position + readBytes) = content.take (position + readBytes) := by
        have := copyInto_take buffer position ((content.drop position).take readBytes)
          (by omega)
        rw [hchunk] at this
        rw [this, htake, ← List.take_add]
      have hsub : content.length - position - readBytes
          = content.length - (position + readBytes) := by omega
      rw [hsub]
      exact ih _ (position + readBytes) hpos2 hlen2 htake2

theorem getBufferLoop_closes (content : List Nat) :
    ∀ (schedule buffer : List Nat) (bytes position : Nat),
      SftpAction.closeCall ∈ (getBufferLoop content schedule buffer bytes position).2 := by
  intro schedule
  induction schedule with
  | nil => intro buffer bytes position; simp [getBufferLoop]
  | cons ask rest ih =>
    intro buffer bytes position
    simp only [getBufferLoop]
    split
    · simp
    · simp only [List.mem_cons]
      exact Or.inr (ih _ _ _)

theorem getBufferLoop_read_aligned (content : List Nat) :
    ∀ (schedule buffer : List Nat) (bytes position b l p : Nat),
      SftpAction.readCall b l p ∈ (getBufferLoop content schedule buffer bytes position).2 →
      b = p := by
  intro schedule
  induction schedule with
  | nil =>
    intro buffer bytes position b l p h
    simp [getBufferLoop] at h
    omega
  | cons ask rest ih =>
    intro buffer bytes position b l p h
    simp only [getBufferLoop] at h
    split at h
    · simp at h
      omega
    · simp only [List.mem_cons] at h
      rcases h with h | h
      · simp at h
        omega
      · exact ih _ _ _ b l p h

theorem getBuffer_fills (content schedule : List Nat) :
    (getBuffer content schedule).1 = content := by
  by_cases h : content.length = 0
  · rw [List.length_eq_zero] at h
    subst h
    rfl
  · have h0 : 0 < content.length := Nat.pos_of_ne_zero h
    have hfill := getBufferLoop_fills content schedule (List.replicate content.length 0) 0
      h0 (by simp) (by simp)
    rw [Nat.sub_zero] at hfill
    simp [getBuffer, h, hfill]

/-! ### Claims -/

/-- C1: for every operation run through `cmd` without a caller-supplied
handle: without persistence the created connection is torn down
(`conn.end` then `conn.destroy`) after the promise settles on both the
success and the failure path; with persistence it is torn down on failure
and left open on success. -/
theorem claim1_created_handle_teardown {α : Type} (v : α) (e : JsError) :
    teardownActions (cmdThenStage false false (Except.ok v))
        = [ConnAction.connEnd, ConnAction.connDestroy] ∧
    teardownActions (cmdThenStage (α := α) false false (Except.error e))
        = [ConnAction.connEnd, ConnAction.connDestroy] ∧
    teardownActions (cmdThenStage (α := α) false true (Except.error e))
        = [ConnAction.connEnd, ConnAction.connDestroy] ∧
    teardownActions (cmdThenStage false true (Except.ok v)) = [] := by
  refine ⟨?_, ?_, ?_, ?_⟩ <;>
    simp [teardownActions_cmdThenStage, handleConn, isFailure]

/-- C2: the `getBuffer` read loop issues bounded reads whose buffer offset
always equals the file position, tolerates short reads (any short-read
schedule), closes the file handle when the size is nonzero, and resolves a
buffer equal to the file content (the chunks concatenated in offset order);
a size-zero file resolves the empty buffer without any read. -/
theorem claim2_getBuffer_chunked_read (content schedule : List Nat) :
    (getBuffer content schedule).1 = content ∧
    (∀ b l p : Nat,
      SftpAction.readCall b l p ∈ (getBuffer content schedule).2 → b = p) ∧
    (content.length ≠ 0 → SftpAction.closeCall ∈ (getBuffer content schedule).2) ∧
    (content.length = 0 →
      readCount (getBuffer content schedule).2 = 0 ∧
        (getBuffer content schedule).1 = []) := by
  refine ⟨getBuffer_fills content schedule, ?_, ?_, ?_⟩
  · intro b l p h
    by_cases hz : content.length = 0
    · rw [List.length_eq_zero] at hz
      subst hz
      simp [getBuffer] at h
    · simp only [getBuffer, if_neg hz, List.mem_cons] at h
      rcases h with h | h | h
      · exact absurd h (by simp)
      · exact absurd h (by simp)
      · exact getBufferLoop_read_aligned content schedule _ _ _ b l p h
  · intro hz
    simp only [getBuffer, if_neg hz, List.mem_cons]
    exact Or.inr (Or.inr (getBufferLoop_closes content schedule _ _ _))
  · intro hz
    rw [List.length_eq_zero] at hz
    subst hz
    exact ⟨rfl, rfl⟩

/-- Witness for C2 at concrete inputs: a two-byte file read under a
short-read schedule, and the empty file. -/
theorem claim2_witness :
    (getBuffer [4, 9] [0]).1 = [4, 9] ∧
    SftpAction.closeCall ∈ (getBuffer [4, 9] [0]).2 ∧
    readCount (getBuffer [] [0]).2 = 0 := by
  refine ⟨(claim2_getBuffer_chunked_read [4, 9] [0]).1,
    (claim2_getBuffer_chunked_read [4, 9] [0]).2.2.1 (by decide),
    ((claim2_getBuffer_chunked_read [] [0]).2.2.2 rfl).1⟩

/-- C3: for every operation invoked with a caller-supplied existing handle,
the core performs no teardown action on it, whether the operation resolves
or rejects, and whatever the persistence flag. -/
theorem claim3_session_never_closed {α : Type} (persist : Bool)
    (inner : Except JsError α) :
    teardownActions (cmdThenStage true persist inner) = [] := by
  simp [teardownActions_cmdThenStage, handleConn]

/-- C4: the promise of a `cmd` call is settled at most once, the first
`resolve`/`reject` invocation wins, and whenever some settling lifecycle
signal fires (`end`, `error`, or `ready` with a body that settles) it is
settled exactly once — however many signals fire and in whatever order. -/
theorem claim4_settled_exactly_once {α : Type} (cmdCB : List (Except JsError α))
    (events : List ConnEvent) :
    (settleRun none 0 (cmdAttempts cmdCB events)).2 ≤ 1 ∧
    (settleRun none 0 (cmdAttempts cmdCB events)).1 = (cmdAttempts cmdCB events).head? ∧
    ((∃ ev ∈ events, settlingEvent cmdCB ev = true) →
      (settleRun none 0 (cmdAttempts cmdCB events)).2 = 1) := by
  cases hl : cmdAttempts cmdCB events with
  | nil =>
    refine ⟨by simp [settleRun], by simp [settleRun], ?_⟩
    rintro ⟨ev, hmem, hset⟩
    exact absurd hl (cmdAttempts_ne_nil cmdCB events ev hmem hset)
  | cons r rest =>
    simp [settleRun, settleRun_some]

/-- Witness for C4: a connection that only ever signals `end` settles the
promise exactly once. -/
theorem claim4_witness :
    (settleRun none 0 (cmdAttempts ([] : List (Except JsError Nat))
      [ConnEvent.ended])).2 = 1 :=
  (claim4_settled_exactly_once [] [ConnEvent.ended]).2.2
    ⟨ConnEvent.ended, by simp, rfl⟩

/-- C5: `execCmd` resolves `true` on exit status `0`, rejects with the
constructed descriptive error on a nonzero exit status, and rejects with
the underlying start error when the command fails to start. -/
theorem claim5_execCmd_exit_status :
    execCmd (ExecOutcome.exit 0) = Except.ok true ∧
    (∀ c : Nat, c ≠ 0 → execCmd (ExecOutcome.exit c) = Except.error JsError.nonZeroExit) ∧
    (∀ e : JsError, execCmd (ExecOutcome.startErr e) = Except.error e) := by
  refine ⟨rfl, ?_, fun e => rfl⟩
  intro c hc
  simp [execCmd, hc]

/-- Witness for C5: exit status 2 rejects with the descriptive error. -/
theorem claim5_witness :
    execCmd (ExecOutcome.exit 2) = Except.error JsError.nonZeroExit :=
  claim5_execCmd_exit_status.2.1 2 (by decide)

/-- C6: for every operation run through `cmd`, every connection-teardown
action in the outer trace precedes the external settlement, the external
settlement is the last event, and it carries the inner resolution value or
rejection error unchanged. -/
theorem claim6_teardown_before_settlement {α : Type} (session persist : Bool)
    (inner : Except JsError α) :
    settledEvents (cmdThenStage session persist inner) = [inner] ∧
    (cmdThenStage session persist inner).getLast?
        = some (OuterEvent.settled inner) ∧
    ∀ x ∈ (cmdThenStage session persist inner).dropLast,
      ∃ a, x = OuterEvent.connAct a := by
  refine ⟨settledEvents_cmdThenStage session persist inner, ?_, ?_⟩
  · unfold cmdThenStage
    exact List.getLast?_concat _
  · unfold cmdThenStage
    rw [List.dropLast_concat]
    intro x hx
    rw [List.mem_map] at hx
    obtain ⟨a, _, rfl⟩ := hx
    exact ⟨a, rfl⟩

/-- C7: writing a buffer `B` with `putBuffer` and reading the resulting
remote file back with `getBuffer` yields `B`, for every `B` (length 0, 1,
or many chunks) and every short-read schedule. -/
theorem claim7_roundtrip (B schedule : List Nat) :
    (getBuffer (putBufferFile B) schedule).1 = B := by
  have h : putBufferFile B = B := by
    simp [putBufferFile, writeAt]
  rw [h]
  exact getBuffer_fills B schedule

/-- C8: `putBuffer` issues at most one bounded write on every path, and on
the success path its trace is exactly open-for-write, one write of the full
buffer (buffer offset 0, length `buffer.length`, file position 0), then
close, resolving `true`. -/
theorem claim8_putBuffer_single_write (env : PutEnv) (buffer : List Nat) :
    writeCount (putBuffer env buffer).1 ≤ 1 ∧
    (env.openErr = none → env.writeErr = none → env.closeErr = none →
      (putBuffer env buffer).1
          = [SftpAction.openW, SftpAction.writeCall 0 buffer.length 0,
            SftpAction.closeCall] ∧
        (putBuffer env buffer).2 = Except.ok true) := by
  obtain ⟨o, w, c⟩ := env
  constructor
  · cases o <;> cases w <;> cases c <;>
      simp [putBuffer, writeCount, isWriteCall, List.filter]
  · intro ho hw hc
    subst ho; subst hw; subst hc
    exact ⟨rfl, rfl⟩

/-- Witness for C8: the error-free environment on a two-byte buffer. -/
theorem claim8_witness :
    (putBuffer ⟨none, none, none⟩ [5, 6]).1
        = [SftpAction.openW, SftpAction.writeCall 0 2 0, SftpAction.closeCall] ∧
      (putBuffer ⟨none, none, none⟩ [5, 6]).2 = Except.ok true :=
  (claim8_putBuffer_single_write ⟨none, none, none⟩ [5, 6]).2 rfl rfl rfl

/-- C9: for a remote file of size 0, `getBuffer` resolves the empty buffer
immediately after `open` and `fstat`, issuing no read and never calling
`sftp.close` on the file handle it opened. -/
theorem claim9_empty_file_no_close (content schedule : List Nat)
    (h : content.length = 0) :
    (getBuffer content schedule).1 = [] ∧
    (getBuffer content schedule).2 = [SftpAction.openR, SftpAction.fstatCall] ∧
    SftpAction.closeCall ∉ (getBuffer content schedule).2 := by
  rw [List.length_eq_zero] at h
  subst h
  refine ⟨rfl, rfl, ?_⟩
  intro hmem
  rw [show (getBuffer [] schedule).2 = [SftpAction.openR, SftpAction.fstatCall]
    from rfl] at hmem
  simp at hmem

/-- Witness for C9: the empty file with an empty schedule. -/
theorem claim9_witness :
    (getBuffer [] []).2 = [SftpAction.openR, SftpAction.fstatCall] ∧
      SftpAction.closeCall ∉ (getBuffer [] []).2 :=
  ⟨(claim9_empty_file_no_close [] [] rfl).2.1,
    (claim9_empty_file_no_close [] [] rfl).2.2⟩

/-- C10: in `getStream` and `putStream` the stream-validity check runs
before the sub-channel open error is examined, so an invalid stream makes
the call reject with the constructed stream error even when the sub-channel
open also failed. -/
theorem claim10_stream_check_ordering (err : Option JsError) :
    getStreamEntry false err = some JsError.streamNotWritable ∧
    putStreamEntry false err = some JsError.streamNotReadable :=
  ⟨rfl, rfl⟩

end SftpPromises
